import Mathlib

/-!
Shallow embedding of the `codehz/workflow` durable workflow engine.

The definitions below are translated from the repository's sources:

* `src/utils.ts` (`parseDuration`, `getErrorMessage`),
* `src/errors.ts` (`NonRetryableError`),
* `src/storages/in-memory.ts` (`InMemoryWorkflowStorage` with its three maps
  `storage`, `stepStorage`, `pendingEvents`),
* `src/workflow-step.ts` (`LocalWorkflowStep.do / sleep / sleepUntil /
  waitForEvent`),
* `src/workflow-executor.ts` (`WorkflowExecutor.startInstance / sendEvent`).

Asynchrony is modelled by explicit state passing: each step operation is a
pure function of the storage, the wall clock (`Date.now()` frozen to one
value `now` per call), the shutdown latch (`sd`, the value of
`shutdownRequested`), and - for `waitForEvent` - an `arrival` parameter that
says whether the in-process listener is resolved before the timeout fires.
A suspension point hit while the latch is set yields the never-resolving
`DISABLED_PROMISE`, modelled by the outcome `hang`.
-/

set_option autoImplicit false

namespace Workflow

/-- JS values as they appear in step results / event payloads. -/
inductive JSValue where
  | nullV
  | undef
  | boolV (b : Bool)
  | numV (n : Int)
  | strV (s : String)
  deriving DecidableEq

/-- A thrown JS error: `NonRetryableError` instances carry
`nonRetryable = true` (src/errors.ts); `getErrorMessage` of an `Error` is its
`message`. -/
structure JSError where
  nonRetryable : Bool
  message : String
  deriving DecidableEq

/-- Instance statuses (src/types.ts `InstanceStatus`). -/
inductive InstanceStatus where
  | queued | running | paused | errored | terminated
  | complete | waiting | waitingForPause | unknown
  deriving DecidableEq

/-- Step checkpoint states: the shapes actually written by
`src/workflow-step.ts` plus `pending` from `src/types.ts`.  `failed` written
by `do` carries a retries count, the one written by `waitForEvent` does not,
hence the `Option`. -/
inductive StepState where
  | pending
  | running (retries : Nat)
  | retrying (retryEndTime : Int) (retries : Nat)
  | completed (result : JSValue)
  | failed (error : String) (retries : Option Nat)
  | sleeping (sleepEndTime : Int)
  | waitingForEvent (waitEventType : String) (waitTimeout : Nat)
  deriving DecidableEq

/-- Instance record (src/types.ts `InstanceInfo`): `event` is the stored
triggering event, reduced to its payload; a record whose `event` is missing
is treated as nonexistent by `loadInstance`. -/
structure InstanceInfo where
  status : InstanceStatus
  error : Option String := none
  output : Option JSValue := none
  event : Option JSValue := none
  deriving DecidableEq

/-- A merge patch for `updateInstance` (`{ ...existing, ...updates }`): a
`some` field means the key is present in `updates`. -/
structure InstancePatch where
  status : Option InstanceStatus := none
  output : Option JSValue := none
  error : Option String := none
  deriving DecidableEq

/-- JS object spread `{ ...existing, ...updates }`. -/
def applyPatch (i : InstanceInfo) (p : InstancePatch) : InstanceInfo where
  status := p.status.getD i.status
  output := match p.output with | some o => some o | none => i.output
  error := match p.error with | some e => some e | none => i.error
  event := i.event

namespace alist

variable {κ α : Type} [DecidableEq κ]

/-- `Map.get`. -/
def get : List (κ × α) → κ → Option α
  | [], _ => none
  | (k, v) :: r, k' => if k' = k then some v else get r k'

/-- `Map.set` (replace in place, else append). -/
def set : List (κ × α) → κ → α → List (κ × α)
  | [], k', v' => [(k', v')]
  | (k, v) :: r, k', v' => if k' = k then (k', v') :: r else (k, v) :: set r k' v'

/-- `Map.delete`. -/
def del : List (κ × α) → κ → List (κ × α)
  | [], _ => []
  | (k, v) :: r, k' => if k' = k then r else (k, v) :: del r k'

end alist

/-- Decidable equality for `Except` results. -/
instance {ε α : Type} [DecidableEq ε] [DecidableEq α] : DecidableEq (Except ε α) :=
  fun a b =>
    match a, b with
    | .ok x, .ok y => decidable_of_iff (x = y) (by simp)
    | .error x, .error y => decidable_of_iff (x = y) (by simp)
    | .ok _, .error _ => isFalse (by simp)
    | .error _, .ok _ => isFalse (by simp)

/-- The in-memory storage (src/storages/in-memory.ts): three maps, step
checkpoints and pending events keyed by the concatenated strings
`instanceId + ":" + stepName` and `instanceId + ":" + eventType`. -/
structure Storage where
  instances : List (String × InstanceInfo)
  stepStorage : List (String × StepState)
  pendingEvents : List (String × JSValue)
  deriving DecidableEq

/-- Backtick-template key `instanceId:stepName`. -/
def stepKey (id name : String) : String := id ++ ":" ++ name

/-- Backtick-template key `instanceId:eventType`. -/
def pendKey (id ty : String) : String := id ++ ":" ++ ty

/-- `saveInstance`: full overwrite. -/
def saveInstance (s : Storage) (id : String) (st : InstanceInfo) : Storage :=
  { s with instances := alist.set s.instances id st }

/-- `loadInstance`: `null` when absent or when the record has no `event`. -/
def loadInstance (s : Storage) (id : String) : Option InstanceInfo :=
  match alist.get s.instances id with
  | none => none
  | some i => if i.event.isNone then none else some i

/-- `updateInstance`: merge-patch; throws `Instance ${id} not found` when the
record is absent. -/
def updateInstance (s : Storage) (id : String) (p : InstancePatch) :
    Except String Storage :=
  match alist.get s.instances id with
  | some existing =>
      .ok { s with instances := alist.set s.instances id (applyPatch existing p) }
  | none => .error ("Instance " ++ id ++ " not found")

/-- `updateStepState`: requires the instance record to exist, then upserts
the checkpoint under the string key `id:name`. -/
def updateStepState (s : Storage) (id name : String) (st : StepState) :
    Except String Storage :=
  match alist.get s.instances id with
  | none => .error ("Instance " ++ id ++ " not found")
  | some _ => .ok { s with stepStorage := alist.set s.stepStorage (stepKey id name) st }

/-- `loadStepState`. -/
def loadStepState (s : Storage) (id name : String) : Option StepState :=
  alist.get s.stepStorage (stepKey id name)

/-- Prefix test on char lists (used for `key.startsWith(instanceId + ":")`). -/
def litAt : List Char → List Char → Bool
  | [], _ => true
  | _ :: _, [] => false
  | p :: ps, c :: cs => p == c && litAt ps cs

/-- `deleteInstance` of the in-memory backend: removes the record and every
step checkpoint whose key starts with `id:`.  (The `pendingEvents` map is not
touched by the source.) -/
def deleteInstance (s : Storage) (id : String) : Storage where
  instances := alist.del s.instances id
  stepStorage := s.stepStorage.filter (fun kv => !(litAt (id ++ ":").toList kv.1.toList))
  pendingEvents := s.pendingEvents

/-- `savePendingEvent`: first-wins, keyed `id:type`. -/
def savePendingEvent (s : Storage) (id ty : String) (p : JSValue) : Storage :=
  match alist.get s.pendingEvents (pendKey id ty) with
  | some _ => s
  | none => { s with pendingEvents := alist.set s.pendingEvents (pendKey id ty) p }

/-- `loadPendingEvent`: return-and-remove; a stored `undefined` payload is
indistinguishable from a missing entry (`payload !== undefined`). -/
def loadPendingEvent (s : Storage) (id ty : String) : Option JSValue × Storage :=
  match alist.get s.pendingEvents (pendKey id ty) with
  | some p =>
      if p = .undef then (none, s)
      else (some p, { s with pendingEvents := alist.del s.pendingEvents (pendKey id ty) })
  | none => (none, s)

/-! ## Duration parsing (src/utils.ts `parseDuration`)

The source matches the **unanchored** regex
`/(\d+)\s*(second|minute|hour|day)s?/` against the string and converts the
first match.  The regex search is modelled by trying a match at each start
position from the left; at a given position the greedy `\d+` must take the
whole digit run (a shorter run leaves a digit where `\s*(unit)` can never
match), `\s*` takes the whole space run (the unit words do not start with a
space), and at most one unit alternative can apply since the four words have
distinct first letters. -/

/-- Regex `\d` = `[0-9]`. -/
def isDig (c : Char) : Bool := 48 ≤ c.toNat && c.toNat ≤ 57

/-- Regex `\s` (ASCII whitespace plus NBSP; both the code's regex and the
spec's pattern use the same class, so the exact extent is shared). -/
def jsWhite (c : Char) : Bool :=
  c.toNat = 32 || (9 ≤ c.toNat && c.toNat ≤ 13) || c.toNat = 160

inductive DurUnit where
  | second | minute | hour | day
  deriving DecidableEq

def unitMult : DurUnit → Nat
  | .second => 1000
  | .minute => 60 * 1000
  | .hour => 60 * 60 * 1000
  | .day => 24 * 60 * 60 * 1000

/-- Match `(second|minute|hour|day)` at the head, returning the unit and the
rest (before the optional `s`). -/
def unitAt (cs : List Char) : Option (DurUnit × List Char) :=
  if litAt "second".toList cs then some (.second, cs.drop 6)
  else if litAt "minute".toList cs then some (.minute, cs.drop 6)
  else if litAt "hour".toList cs then some (.hour, cs.drop 4)
  else if litAt "day".toList cs then some (.day, cs.drop 3)
  else none

/-- `parseInt` on a digit run. -/
def natOfDigits (ds : List Char) : Nat :=
  ds.foldl (fun a c => a * 10 + (c.toNat - 48)) 0

/-- One attempt of `(\d+)\s*(second|minute|hour|day)s?` anchored at the head
of `cs`; yields the parsed millisecond value on success. -/
def matchAtPos (cs : List Char) : Option Nat :=
  if (cs.takeWhile isDig).isEmpty then none
  else
    match unitAt ((cs.dropWhile isDig).dropWhile jsWhite) with
    | some (u, _) => some (natOfDigits (cs.takeWhile isDig) * unitMult u)
    | none => none

/-- The unanchored regex search: first matching position from the left. -/
def searchDur : List Char → Option Nat
  | [] => none
  | c :: cs =>
    match matchAtPos (c :: cs) with
    | some v => some v
    | none => searchDur cs

/-- src/utils.ts `parseDuration`. -/
def parseDuration (s : String) : Except String Nat :=
  match searchDur s.toList with
  | some v => .ok v
  | none => .error ("Invalid duration format: " ++ s)

/-- Regex `s?` of the anchored spec pattern (greedy; no backtracking is
needed because `s` is not whitespace). -/
def dropS : List Char → List Char
  | 's' :: rs => rs
  | rs => rs

/-- Modelled from the spec: the anchored pattern
`^\s*(\d+)\s*(second|minute|hour|day)s?\s*$` of spec §4.2, with the unit
multipliers; used to compare spec and code acceptance. -/
def anchoredDur (cs : List Char) : Option Nat :=
  if ((cs.dropWhile jsWhite).takeWhile isDig).isEmpty then none
  else
    match unitAt (((cs.dropWhile jsWhite).dropWhile isDig).dropWhile jsWhite) with
    | some (u, rest) =>
      if ((dropS rest).dropWhile jsWhite).isEmpty then
        some (natOfDigits ((cs.dropWhile jsWhite).takeWhile isDig) * unitMult u)
      else none
    | none => none

/-- Modelled from the spec: `parseDuration` as spec §4.2 describes it. -/
def parseDurationAnchored (s : String) : Option Nat := anchoredDur s.toList

/-! ## The step executor (src/workflow-step.ts `LocalWorkflowStep`) -/

/-- Outcome of an async step call: normal return, thrown error (by its
normalized message), or the never-resolving `DISABLED_PROMISE`. -/
inductive StepOutcome where
  | ok (v : JSValue)
  | err (msg : String)
  | hang
  deriving DecidableEq

/-- The `options.timeout` argument of `waitForEvent`. -/
inductive TimeoutOpt where
  | noTimeout
  | str (s : String)
  | num (n : Nat)
  deriving DecidableEq

/-- JS truthiness of the `timeout` option (`0` and `""` are falsy). -/
def timeoutTruthy : TimeoutOpt → Bool
  | .noTimeout => false
  | .str s => s != ""
  | .num n => n != 0

/-- `options.timeout ? (typeof === "string" ? parseDuration : timeout)
 : 24 * 60 * 60 * 1000`. -/
def resolveTimeout (t : TimeoutOpt) : Except String Nat :=
  if timeoutTruthy t then
    match t with
    | .str s => parseDuration s
    | .num n => .ok n
    | .noTimeout => .ok (24 * 60 * 60 * 1000)
  else .ok (24 * 60 * 60 * 1000)

/-- Result of a `waitForEvent` call. -/
structure WaitResult where
  out : StepOutcome
  store : Storage
  deriving DecidableEq

/-- `LocalWorkflowStep.waitForEvent`: resolve the timeout, replay a terminal
checkpoint, otherwise record `waitingForEvent` and race the in-process
listener (`arrival`) against the timer; the success write happens inside the
`try`, so a storage failure there is also caught, checkpointed `failed` and
rethrown. -/
def waitForEvent (s : Storage) (id name ty : String) (tmo : TimeoutOpt)
    (arrival : Option JSValue) (sd : Bool) : WaitResult :=
  match resolveTimeout tmo with
  | .error m => ⟨.err m, s⟩
  | .ok timeoutMs =>
    match loadStepState s id name with
    | some (.completed r) => if sd then ⟨.hang, s⟩ else ⟨.ok r, s⟩
    | some (.failed e _) => if sd then ⟨.hang, s⟩ else ⟨.err e, s⟩
    | _ =>
      if sd then ⟨.hang, s⟩
      else
        match updateStepState s id name (.waitingForEvent ty timeoutMs) with
        | .error m => ⟨.err m, s⟩
        | .ok s1 =>
          if sd then ⟨.hang, s1⟩
          else
            match arrival with
            | some p =>
              if sd then ⟨.hang, s1⟩
              else
                match updateStepState s1 id name (.completed p) with
                | .ok s2 => if sd then ⟨.hang, s2⟩ else ⟨.ok p, s2⟩
                | .error m =>
                  match updateStepState s1 id name (.failed m none) with
                  | .ok s2 => ⟨.err m, s2⟩
                  | .error m2 => ⟨.err m2, s1⟩
            | none =>
              if sd then ⟨.hang, s1⟩
              else
                match updateStepState s1 id name (.failed "Timeout" none) with
                | .ok s2 => if sd then ⟨.hang, s2⟩ else ⟨.err "Timeout", s2⟩
                | .error m2 => ⟨.err m2, s1⟩

/-- The `duration` argument of `sleep` (string or milliseconds). -/
inductive JSDurArg where
  | num (n : Int)
  | str (s : String)
  deriving DecidableEq

/-- Template interpolation of the duration argument. -/
def jsDurArgStr : JSDurArg → String
  | .num n => toString n
  | .str s => s

/-- `typeof duration === "string" ? parseDuration(duration) : duration`. -/
def durToMs : JSDurArg → Except String Int
  | .num n => .ok n
  | .str s =>
    match parseDuration s with
    | .ok v => .ok (Int.ofNat v)
    | .error m => .error m

/-- Result of a `sleep` / `sleepUntil` call; `waitedMs` is the positive
remaining time actually slept (`none` when the call returned without
waiting). -/
structure SleepResult where
  out : StepOutcome
  store : Storage
  waitedMs : Option Int
  deriving DecidableEq

/-- `LocalWorkflowStep.sleep`: the duration is parsed and validated *before*
the checkpoint is consulted; a completed checkpoint then short-circuits. -/
def sleepStep (s : Storage) (id name : String) (duration : JSDurArg)
    (now : Int) (sd : Bool) : SleepResult :=
  match durToMs duration with
  | .error m => ⟨.err m, s, none⟩
  | .ok ms =>
    if ms ≤ 0 then ⟨.err ("Invalid duration: " ++ jsDurArgStr duration), s, none⟩
    else
      match loadStepState s id name with
      | some (.completed _) => if sd then ⟨.hang, s, none⟩ else ⟨.ok .undef, s, none⟩
      | _ =>
        if sd then ⟨.hang, s, none⟩
        else
          match updateStepState s id name (.sleeping (now + ms)) with
          | .error m => ⟨.err m, s, none⟩
          | .ok s1 =>
            if 0 < now + ms - now then
              if sd then ⟨.hang, s1, none⟩
              else
                if sd then ⟨.hang, s1, some ms⟩
                else
                  match updateStepState s1 id name (.completed .undef) with
                  | .error m => ⟨.err m, s1, some ms⟩
                  | .ok s2 => ⟨.ok .undef, s2, some ms⟩
            else
              if sd then ⟨.hang, s1, none⟩
              else
                match updateStepState s1 id name (.completed .undef) with
                | .error m => ⟨.err m, s1, none⟩
                | .ok s2 => ⟨.ok .undef, s2, none⟩

/-- The `timestamp` argument of `sleepUntil`: a numeric is
seconds-since-epoch (`new Date(timestamp * 1000)`), a `Date` carries its
epoch-ms, and `invalidDate` stands for a `Date` whose time is `NaN`. -/
inductive TsArg where
  | num (n : Int)
  | date (ms : Int)
  | invalidDate
  deriving DecidableEq

/-- Template interpolation of the timestamp argument (JS renders a `Date`
with a locale string; the rendering is abstracted, no claim depends on it). -/
def tsArgStr : TsArg → String
  | .num n => toString n
  | .date m => toString m
  | .invalidDate => "Invalid Date"

/-- `target.getTime()` of the normalized timestamp. -/
def tsTarget : TsArg → Option Int
  | .num n => some (n * 1000)
  | .date m => some m
  | .invalidDate => none

/-- `LocalWorkflowStep.sleepUntil`: validity and past-ness of the target are
checked *before* the checkpoint is consulted. -/
def sleepUntilStep (s : Storage) (id name : String) (ts : TsArg)
    (now : Int) (sd : Bool) : SleepResult :=
  match tsTarget ts with
  | none => ⟨.err ("Invalid timestamp: " ++ tsArgStr ts), s, none⟩
  | some tgt =>
    if tgt - now ≤ 0 then
      ⟨.err ("Timestamp is in the past or invalid: " ++ tsArgStr ts), s, none⟩
    else
      match loadStepState s id name with
      | some (.completed _) => if sd then ⟨.hang, s, none⟩ else ⟨.ok .undef, s, none⟩
      | _ =>
        if sd then ⟨.hang, s, none⟩
        else
          match updateStepState s id name (.sleeping tgt) with
          | .error m => ⟨.err m, s, none⟩
          | .ok s1 =>
            if 0 < tgt - now then
              if sd then ⟨.hang, s1, none⟩
              else
                if sd then ⟨.hang, s1, some (tgt - now)⟩
                else
                  match updateStepState s1 id name (.completed .undef) with
                  | .error m => ⟨.err m, s1, some (tgt - now)⟩
                  | .ok s2 => ⟨.ok .undef, s2, some (tgt - now)⟩
            else
              if sd then ⟨.hang, s1, none⟩
              else
                match updateStepState s1 id name (.completed .undef) with
                | .error m => ⟨.err m, s1, none⟩
                | .ok s2 => ⟨.ok .undef, s2, none⟩

/-! ### `do` with retries -/

inductive Backoff where
  | constant | exponential
  deriving DecidableEq

/-- The `delay` field of the retry config (string or milliseconds). -/
inductive JSDelay where
  | num (n : Nat)
  | str (s : String)
  deriving DecidableEq

/-- `config.retries` (src/types.ts `WorkflowStepConfig`). -/
structure RetryCfg where
  limit : Nat
  delay : JSDelay
  backoff : Backoff
  deriving DecidableEq

/-- `config?.retries?.limit || 0`. -/
def cfgLimit : Option RetryCfg → Nat
  | some c => c.limit
  | none => 0

/-- The in-loop wait of src/workflow-step.ts:
`typeof config!.retries!.delay === "number" ? config!.retries!.delay : 1000`
- independent of `backoff` and of the attempt number (the `none` arm is
unreachable: without a config `maxRetries = 0` and the retry arm is never
entered). -/
def retryDelayOf : Option RetryCfg → Nat
  | some c => match c.delay with | .num n => n | .str _ => 1000
  | none => 1000

/-- Modelled from the spec: the §4.3.1 step-6 delay - `constant` uses
`delay` unchanged, `exponential` uses `delay × 2^(attempts−1)`, a string
`delay` goes through the §4.2 duration parser.  Used to compare the code's
wait against the specified one. -/
def specRetryDelay (c : RetryCfg) (attempts : Nat) : Except String Nat :=
  match (match c.delay with | .num n => Except.ok n | .str s => parseDuration s) with
  | .error m => .error m
  | .ok base =>
    .ok (match c.backoff with
         | .constant => base
         | .exponential => base * 2 ^ (attempts - 1))

/-- Result of a `do` call.  `bodyCalls` counts invocations of the user body,
`backoffWaits` lists the retry delays actually slept in order. -/
structure DoResult where
  out : StepOutcome
  store : Storage
  bodyCalls : Nat
  backoffWaits : List Nat
  deriving DecidableEq

/-- The `while (attempts <= maxRetries)` loop of `do`.  `fuel` is
`maxRetries + 1 - attempts`, so `fuel = 0` is the loop condition failing and
the following `result === undefined` throw; the body is invoked as
`body calls` (its invocation index).  A body resolving to `undefined` also
trips the `result === undefined` throw, without a checkpoint write. -/
def doLoop (id name : String) (cfg : Option RetryCfg) (maxRetries : Nat)
    (body : Nat → Except JSError JSValue) (now : Int) (sd : Bool) :
    Nat → Nat → Nat → List Nat → Storage → DoResult
  | 0, _, calls, waits, s => ⟨.err "Step failed after retries", s, calls, waits⟩
  | fuel + 1, attempts, calls, waits, s =>
    match body calls with
    | .ok v =>
      if v = .undef then ⟨.err "Step failed after retries", s, calls + 1, waits⟩
      else
        if sd then ⟨.hang, s, calls + 1, waits⟩
        else
          match updateStepState s id name (.completed v) with
          | .error m => ⟨.err m, s, calls + 1, waits⟩
          | .ok s1 => if sd then ⟨.hang, s1, calls + 1, waits⟩ else ⟨.ok v, s1, calls + 1, waits⟩
    | .error e =>
      if e.nonRetryable || attempts + 1 > maxRetries then
        if sd then ⟨.hang, s, calls + 1, waits⟩
        else
          match updateStepState s id name (.failed e.message (some (attempts + 1))) with
          | .error m => ⟨.err m, s, calls + 1, waits⟩
          | .ok s1 =>
            if sd then ⟨.hang, s1, calls + 1, waits⟩
            else ⟨.err e.message, s1, calls + 1, waits⟩
      else
        if sd then ⟨.hang, s, calls + 1, waits⟩
        else
          match updateStepState s id name (.retrying (now + retryDelayOf cfg) (attempts + 1)) with
          | .error m => ⟨.err m, s, calls + 1, waits⟩
          | .ok s1 =>
            if sd then ⟨.hang, s1, calls + 1, waits⟩
            else
              match updateStepState s1 id name (.running (attempts + 1)) with
              | .error m => ⟨.err m, s1, calls + 1, waits ++ [retryDelayOf cfg]⟩
              | .ok s2 =>
                doLoop id name cfg maxRetries body now sd fuel (attempts + 1)
                  (calls + 1) (waits ++ [retryDelayOf cfg]) s2

/-- `existingStepState?.retries || 0`. -/
def retriesOf : Option StepState → Nat
  | some (.running r) => r
  | some (.retrying _ r) => r
  | some (.failed _ (some r)) => r
  | _ => 0

/-- The common tail of `do` once the terminal-replay branches are passed:
write `running { retries }`, then run the retry loop. -/
def doProceed (s : Storage) (id name : String) (cfg : Option RetryCfg)
    (body : Nat → Except JSError JSValue) (now : Int) (sd : Bool)
    (initialRetries : Nat) : DoResult :=
  if sd then ⟨.hang, s, 0, []⟩
  else
    match updateStepState s id name (.running initialRetries) with
    | .error m => ⟨.err m, s, 0, []⟩
    | .ok s1 =>
      if sd then ⟨.hang, s1, 0, []⟩
      else
        doLoop id name cfg (cfgLimit cfg) body now sd
          (cfgLimit cfg + 1 - initialRetries) initialRetries 0 [] s1

/-- `LocalWorkflowStep.do`: replay a terminal checkpoint without touching
the body; a `retrying` checkpoint whose `retryEndTime` is still ahead waits
out the remainder first; every other state falls through to the retry loop
with the stored retries count. -/
def stepDo (s : Storage) (id name : String) (cfg : Option RetryCfg)
    (body : Nat → Except JSError JSValue) (now : Int) (sd : Bool) : DoResult :=
  match loadStepState s id name with
  | some (.completed r) => if sd then ⟨.hang, s, 0, []⟩ else ⟨.ok r, s, 0, []⟩
  | some (.failed e _) => if sd then ⟨.hang, s, 0, []⟩ else ⟨.err e, s, 0, []⟩
  | some (.retrying endT r) =>
    if now < endT then
      if sd then ⟨.hang, s, 0, []⟩
      else doProceed s id name cfg body now sd r
    else doProceed s id name cfg body now sd r
  | st => doProceed s id name cfg body now sd (retriesOf st)

/-! ## Executor (src/workflow-executor.ts) -/

/-- The executor's in-process `eventListeners` map: for each instance id,
the event types that currently have a registered one-shot resolver. -/
structure ExecState where
  listeners : List (String × List String)
  deriving DecidableEq

/-- `WorkflowExecutor.sendEvent`: purely an in-process listener lookup - the
function has no storage access at all.  The second component is the payload
handed to a resolved waiter (`none` when no listener existed: the event is
dropped). -/
def execSendEvent (es : ExecState) (id ty : String) (p : JSValue) :
    ExecState × Option JSValue :=
  match alist.get es.listeners id with
  | none => (es, none)
  | some tys =>
    if ty ∈ tys then
      (⟨alist.set es.listeners id (tys.erase ty)⟩, some p)
    else (es, none)

/-- The `runPromise` body of `WorkflowExecutor.startInstance`: mark
`running`, run the user's `run` (given as a storage transformer), then write
the terminal status; any thrown error - including storage errors - is
caught and recorded as `errored` with its normalized message.  A hanging run
never resumes, so no terminal write happens. -/
def startInstanceRun (s0 : Storage) (id : String)
    (body : Storage → StepOutcome × Storage) : Storage :=
  match updateInstance s0 id { status := some .running } with
  | .error m =>
    match updateInstance s0 id { status := some .errored, error := some m } with
    | .ok s' => s'
    | .error _ => s0
  | .ok s1 =>
    match body s1 with
    | (.ok v, s2) =>
      match updateInstance s2 id { status := some .complete, output := some v } with
      | .ok s3 => s3
      | .error m =>
        match updateInstance s2 id { status := some .errored, error := some m } with
        | .ok s' => s'
        | .error _ => s2
    | (.err m, s2) =>
      match updateInstance s2 id { status := some .errored, error := some m } with
      | .ok s' => s'
      | .error _ => s2
    | (.hang, s2) => s2

/-! ## Concrete fixtures used by the closed theorems and witnesses -/

/-- A valid instance record (it has an `event`). -/
def exInfo : InstanceInfo :=
  { status := .queued, event := some (.strV "p") }

/-- Storage holding just the instance `i`. -/
def exStoreI : Storage := ⟨[("i", exInfo)], [], []⟩

/-- Storage holding `i` with step `s` checkpointed `completed "r"`. -/
def exStoreDone : Storage :=
  ⟨[("i", exInfo)], [(stepKey "i" "s", .completed (.strV "r"))], []⟩

/-- Storage holding `i` with step `s` checkpointed `completed undefined`
(the shape `sleep` / `sleepUntil` write). -/
def exStoreSlept : Storage :=
  ⟨[("i", exInfo)], [(stepKey "i" "s", .completed .undef)], []⟩

/-- Storage for the `deleteInstance` scenario: instance `i1` with one step
checkpoint and one pending event. -/
def exStoreDel : Storage :=
  ⟨[("i1", exInfo)],
   [(stepKey "i1" "s1", .completed (.strV "x"))],
   [(pendKey "i1" "e1", .strV "p")]⟩

/-- Storage for the key-collision scenario: instances `a` and `a:b`, where
`a:b` owns a checkpoint for its step `c` (stored under the string key
`a:b:c`). -/
def exStoreColl : Storage :=
  ⟨[("a", exInfo), ("a:b", exInfo)],
   [(stepKey "a:b" "c", .completed (.strV "x"))], []⟩

/-- The storage after `updateStepState("a", "b:c", running 0)` on
`exStoreColl`. -/
def exStoreCollAfter : Storage :=
  match updateStepState exStoreColl "a" "b:c" (.running 0) with
  | .ok s => s
  | .error _ => exStoreColl

/-- The retry config of the repository's exponential-backoff test:
`{ limit: 2, delay: 50, backoff: "exponential" }`. -/
def cfgExp : RetryCfg := ⟨2, .num 50, .exponential⟩

/-- The test body that fails on its first two attempts and then succeeds. -/
def bodyFailTwice : Nat → Except JSError JSValue
  | 0 => .error ⟨false, "Temporary failure"⟩
  | 1 => .error ⟨false, "Temporary failure"⟩
  | _ => .ok (.strV "success")

/-- A body that immediately throws `NonRetryableError("Non-retryable error")`. -/
def bodyNonRetry : Nat → Except JSError JSValue :=
  fun _ => .error ⟨true, "Non-retryable error"⟩

/-- Storage holding just the instance `i1`. -/
def exStoreI1 : Storage := ⟨[("i1", exInfo)], [], []⟩

/-- A checkpoint state that is not terminal (`completed` / `failed`): a
`waitForEvent` replaying over such a state proceeds to wait again. -/
def stepNotDone : Option StepState → Bool
  | some (.completed _) => false
  | some (.failed _ _) => false
  | _ => true

/-- A user `run` consisting of a single `waitForEvent` call that never
receives its event, as a storage transformer for `startInstanceRun`. -/
def waitRunBody (id name ty : String) (tmo : TimeoutOpt) :
    Storage → StepOutcome × Storage :=
  fun st =>
    ((waitForEvent st id name ty tmo none false).out,
     (waitForEvent st id name ty tmo none false).store)

/-! ## Association-list lemmas -/

theorem alist.get_set_self {κ α : Type} [DecidableEq κ]
    (l : List (κ × α)) (k : κ) (v : α) :
    alist.get (alist.set l k v) k = some v := by
  induction l with
  | nil => simp [alist.get, alist.set]
  | cons p r ih =>
    obtain ⟨pk, pv⟩ := p
    by_cases h : k = pk <;> simp [alist.get, alist.set, h, ih]

theorem alist.get_set_ne {κ α : Type} [DecidableEq κ]
    (l : List (κ × α)) (k k' : κ) (v : α) (h : k' ≠ k) :
    alist.get (alist.set l k v) k' = alist.get l k' := by
  induction l with
  | nil => simp [alist.get, alist.set, h]
  | cons p r ih =>
    obtain ⟨pk, pv⟩ := p
    by_cases hk : k = pk
    · subst hk; simp [alist.get, alist.set, h]
    · by_cases hk' : k' = pk <;> simp [alist.get, alist.set, hk, hk', ih]

/-! ## Helper lemmas -/

theorem white_not_dig (c : Char) (h : jsWhite c = true) : isDig c = false := by
  simp [jsWhite, isDig] at *
  omega

theorem searchDur_of_anchored (cs : List Char) (v : Nat)
    (h : anchoredDur cs = some v) : searchDur cs = some v := by
  induction cs with
  | nil => simp [anchoredDur] at h
  | cons c cs ih =>
    by_cases hw : jsWhite c
    · have hd : isDig c = false := white_not_dig c hw
      have h1 : anchoredDur (c :: cs) = anchoredDur cs := by
        simp only [anchoredDur, List.dropWhile_cons, hw, if_true]
      have h2 : matchAtPos (c :: cs) = none := by
        simp [matchAtPos, List.takeWhile_cons, hd]
      simp only [searchDur, h2]
      exact ih (h1 ▸ h)
    · have h1 : List.dropWhile jsWhite (c :: cs) = c :: cs := by
        simp only [List.dropWhile_cons, hw, if_false, Bool.false_eq_true]
      simp only [anchoredDur, h1] at h
      simp only [searchDur, matchAtPos]
      by_cases hde : ((c :: cs).takeWhile isDig).isEmpty
      · simp [hde] at h
      · rcases hu : unitAt (((c :: cs).dropWhile isDig).dropWhile jsWhite) with _ | ⟨u, rest⟩
        · simp [hde, hu] at h
        · simp only [hde, hu, if_false] at h ⊢
          by_cases htr : ((dropS rest).dropWhile jsWhite).isEmpty
          · simp only [htr, if_true] at h
            simpa using h
          · simp [htr] at h

/-- A `waitForEvent` that runs into its timeout records `waitingForEvent`
then overwrites it with `failed "Timeout"` and raises `Timeout`. -/
theorem waitForEvent_timeout_eq (s : Storage) (id name ty : String)
    (tmo : TimeoutOpt) (t : Nat) (info : InstanceInfo)
    (hinst : alist.get s.instances id = some info)
    (hnd : stepNotDone (loadStepState s id name) = true)
    (ht : resolveTimeout tmo = .ok t) :
    waitForEvent s id name ty tmo none false =
      ⟨.err "Timeout",
       { s with stepStorage :=
          (alist.set (alist.set s.stepStorage (stepKey id name) (.waitingForEvent ty t))
            (stepKey id name) (.failed "Timeout" none)) }⟩ := by
  cases hls : loadStepState s id name with
  | none => simp [waitForEvent, ht, hls, updateStepState, hinst]
  | some st =>
    cases st <;> simp_all [waitForEvent, ht, updateStepState, hinst, stepNotDone]

/-! ## Claims -/

/-- C2: `sendEvent` with no active listener discards the payload - it never
touches storage (the function has no storage access), so no pending event is
persisted; and `waitForEvent` never calls `loadPendingEvent`: even when a
pending event for the awaited type is sitting in storage, the waiter ignores
it and times out, leaving the pending entry in place.  This contradicts the
claim (and the repository's own pending-event tests). -/
theorem c2_event_before_wait_dropped :
    execSendEvent ⟨[]⟩ "i1" "test-event" (.strV "early") = (⟨[]⟩, none)
    ∧ (waitForEvent (savePendingEvent exStoreI1 "i1" "test-event" (.strV "early"))
        "i1" "w1" "test-event" .noTimeout none false).out = .err "Timeout"
    ∧ (waitForEvent (savePendingEvent exStoreI1 "i1" "test-event" (.strV "early"))
        "i1" "w1" "test-event" .noTimeout none false).store.pendingEvents
      = [(pendKey "i1" "test-event", .strV "early")] := by
  decide

/-- C3: with `{ limit: 2, delay: 50, backoff: "exponential" }` and a body
failing twice, the code sleeps 50 ms before *both* retries (the delay
computation ignores `backoff` and the attempt counter), while the spec's
delay for the second retry is `50 × 2^(2−1) = 100` ms. -/
theorem c3_backoff_ignored :
    (stepDo exStoreI "i" "retry-step" (some cfgExp) bodyFailTwice 0 false).backoffWaits
      = [50, 50]
    ∧ (stepDo exStoreI "i" "retry-step" (some cfgExp) bodyFailTwice 0 false).out
      = .ok (.strV "success")
    ∧ specRetryDelay cfgExp 1 = .ok 50
    ∧ specRetryDelay cfgExp 2 = .ok 100 := by
  decide

/-- C4 counterexample: a `sleepUntil` whose checkpoint is already
`completed` but whose target is in the past does **not** return normally -
the past-target validation runs before the checkpoint is loaded and throws. -/
theorem c4_counterexample :
    loadStepState exStoreSlept "i" "s" = some (.completed .undef)
    ∧ (sleepUntilStep exStoreSlept "i" "s" (.date 500) 1000 false).out
      = .err ("Timestamp is in the past or invalid: " ++ tsArgStr (.date 500)) := by
  decide

/-- C7 counterexample: the source regex is unanchored, so a string with
extra characters before the number and after the unit is accepted (first
match wins), while the spec's anchored pattern rejects it. -/
theorem c7_counterexample :
    parseDurationAnchored "x1 secondy" = none
    ∧ parseDuration "x1 secondy" = .ok 1000 := by
  decide

/-- C8: `deleteInstance` of the in-memory backend removes the instance
record and the instance's step checkpoints, but leaves its pending events in
storage: `loadPendingEvent` still returns the payload afterwards,
contradicting the claim (and the storage contract the other backends
implement). -/
theorem c8_pending_events_survive_delete :
    loadInstance (deleteInstance exStoreDel "i1") "i1" = none
    ∧ loadStepState (deleteInstance exStoreDel "i1") "i1" "s1" = none
    ∧ (loadPendingEvent (deleteInstance exStoreDel "i1") "i1" "e1").1
      = some (.strV "p") := by
  decide

/-- C10 counterexample: checkpoint keys are the concatenated strings
`id + ":" + name`, so `updateStepState("a", "b:c", …)` overwrites the
checkpoint of step `c` of the *different* instance `a:b`. -/
theorem c10_counterexample :
    loadStepState exStoreColl "a:b" "c" = some (.completed (.strV "x"))
    ∧ updateStepState exStoreColl "a" "b:c" (.running 0) = .ok exStoreCollAfter
    ∧ loadStepState exStoreCollAfter "a:b" "c" = some (.running 0) := by
  decide

/-- C9: a `waitForEvent` whose `options.timeout` is the number `0` behaves
exactly like one with the timeout omitted, because the option is tested for
truthiness; the resolved timeout is the 24-hour default, 86 400 000 ms. -/
theorem c9_timeout_zero_is_default (s : Storage) (id name ty : String)
    (arrival : Option JSValue) (sd : Bool) :
    waitForEvent s id name ty (.num 0) arrival sd
      = waitForEvent s id name ty .noTimeout arrival sd
    ∧ resolveTimeout (.num 0) = .ok 86400000 :=
  ⟨rfl, rfl⟩

/-- C1: a step whose checkpoint is `completed` replays: `do` returns the
stored result with the body never invoked and the storage untouched, and
`waitForEvent` (whose timeout option resolves) likewise returns the stored
result with the storage untouched.  Since no operation but
`restart` / `deleteInstance` ever removes a `completed` checkpoint, this
holds on every subsequent call of the step, across crashes and `recover()`. -/
theorem c1_completed_replay (s : Storage) (id name : String)
    (cfg : Option RetryCfg) (body : Nat → Except JSError JSValue) (now : Int)
    (ty : String) (tmo : TimeoutOpt) (arrival : Option JSValue)
    (r : JSValue) (t : Nat)
    (hstep : loadStepState s id name = some (.completed r))
    (ht : resolveTimeout tmo = .ok t) :
    stepDo s id name cfg body now false = ⟨.ok r, s, 0, []⟩
    ∧ waitForEvent s id name ty tmo arrival false = ⟨.ok r, s⟩ := by
  constructor
  · simp [stepDo, hstep]
  · simp [waitForEvent, ht, hstep]

theorem c1_witness :
    loadStepState exStoreDone "i" "s" = some (.completed (.strV "r"))
    ∧ resolveTimeout .noTimeout = .ok 86400000
    ∧ (stepDo exStoreDone "i" "s" none bodyNonRetry 0 false
        = ⟨.ok (.strV "r"), exStoreDone, 0, []⟩
       ∧ waitForEvent exStoreDone "i" "s" "test-event" .noTimeout none false
        = ⟨.ok (.strV "r"), exStoreDone⟩) :=
  ⟨by decide, by decide,
   c1_completed_replay exStoreDone "i" "s" none bodyNonRetry 0 "test-event"
     .noTimeout none (.strV "r") 86400000 (by decide) (by decide)⟩

/-- C4 (amended): a `sleep` / `sleepUntil` whose checkpoint is `completed`
*and whose arguments pass the up-front validation* (positive duration,
future target) returns immediately, without error, without waiting and
without touching storage.  The validation runs before the checkpoint load,
so - as the counterexample shows - a replayed `sleepUntil` with a past
target throws despite the `completed` checkpoint. -/
theorem c4_amended_completed_replay (s : Storage) (id name : String)
    (dur : JSDurArg) (ts : TsArg) (now ms tgt : Int) (r : JSValue)
    (hdur : durToMs dur = .ok ms) (hms : 0 < ms)
    (hts : tsTarget ts = some tgt) (htgt : now < tgt)
    (hc : loadStepState s id name = some (.completed r)) :
    sleepStep s id name dur now false = ⟨.ok .undef, s, none⟩
    ∧ sleepUntilStep s id name ts now false = ⟨.ok .undef, s, none⟩ := by
  constructor
  · simp [sleepStep, hdur, hc, show ¬ ms ≤ 0 by omega]
  · simp [sleepUntilStep, hts, hc, show ¬ tgt - now ≤ 0 by omega]

theorem c4_witness :
    durToMs (.num 100) = .ok 100
    ∧ tsTarget (.date 2000) = some 2000
    ∧ loadStepState exStoreSlept "i" "s" = some (.completed .undef)
    ∧ (sleepStep exStoreSlept "i" "s" (.num 100) 1000 false
        = ⟨.ok .undef, exStoreSlept, none⟩
       ∧ sleepUntilStep exStoreSlept "i" "s" (.date 2000) 1000 false
        = ⟨.ok .undef, exStoreSlept, none⟩) :=
  ⟨by decide, by decide, by decide,
   c4_amended_completed_replay exStoreSlept "i" "s" (.num 100) (.date 2000)
     1000 100 2000 .undef (by decide) (by decide) (by decide) (by decide)
     (by decide)⟩

/-- C5: a `waitForEvent` that receives no matching event within its timeout
checkpoints the step `failed { error: "Timeout" }` and raises `Timeout`; if
that error escapes the user's `run`, the runner writes the terminal instance
status `errored` with error message `"Timeout"` (which contains
`"Timeout"`). -/
theorem c5_wait_timeout (s : Storage) (id name ty : String)
    (tmo : TimeoutOpt) (t : Nat) (info : InstanceInfo)
    (hinst : alist.get s.instances id = some info)
    (hnd : stepNotDone (loadStepState s id name) = true)
    (ht : resolveTimeout tmo = .ok t) :
    (waitForEvent s id name ty tmo none false).out = .err "Timeout"
    ∧ loadStepState (waitForEvent s id name ty tmo none false).store id name
        = some (.failed "Timeout" none)
    ∧ ∃ fi,
        alist.get (startInstanceRun s id (waitRunBody id name ty tmo)).instances id
          = some fi
        ∧ fi.status = .errored
        ∧ fi.error = some "Timeout"
        ∧ loadStepState (startInstanceRun s id (waitRunBody id name ty tmo)) id name
          = some (.failed "Timeout" none) := by
  have h1 := waitForEvent_timeout_eq s id name ty tmo t info hinst hnd ht
  refine ⟨by rw [h1], by rw [h1]; simp [loadStepState, alist.get_set_self], ?_⟩
  have hinst1 : alist.get ({ s with instances :=
        (alist.set s.instances id (applyPatch info ⟨some .running, none, none⟩)) } :
      Storage).instances id = some (applyPatch info ⟨some .running, none, none⟩) := by
    simp [alist.get_set_self]
  have hnd1 : stepNotDone (loadStepState { s with instances :=
      (alist.set s.instances id (applyPatch info ⟨some .running, none, none⟩)) } id name)
        = true := hnd
  have h2 := waitForEvent_timeout_eq _ id name ty tmo t _ hinst1 hnd1 ht
  refine ⟨applyPatch (applyPatch info ⟨some .running, none, none⟩)
            ⟨some .errored, none, some "Timeout"⟩, ?_, rfl, rfl, ?_⟩
  · simp [startInstanceRun, updateInstance, hinst, waitRunBody, h2, alist.get_set_self]
  · simp [startInstanceRun, updateInstance, hinst, waitRunBody, h2, loadStepState,
      alist.get_set_self]

theorem c5_witness :
    alist.get exStoreI.instances "i" = some exInfo
    ∧ stepNotDone (loadStepState exStoreI "i" "w1") = true
    ∧ resolveTimeout (.str "1 second") = .ok 1000
    ∧ ((waitForEvent exStoreI "i" "w1" "never" (.str "1 second") none false).out
        = .err "Timeout"
       ∧ loadStepState
           (waitForEvent exStoreI "i" "w1" "never" (.str "1 second") none false).store
           "i" "w1" = some (.failed "Timeout" none)
       ∧ ∃ fi,
           alist.get
             (startInstanceRun exStoreI "i"
               (waitRunBody "i" "w1" "never" (.str "1 second"))).instances "i"
             = some fi
           ∧ fi.status = .errored
           ∧ fi.error = some "Timeout"
           ∧ loadStepState
               (startInstanceRun exStoreI "i"
                 (waitRunBody "i" "w1" "never" (.str "1 second"))) "i" "w1"
             = some (.failed "Timeout" none)) :=
  ⟨by decide, by decide, by decide,
   c5_wait_timeout exStoreI "i" "w1" "never" (.str "1 second") 1000 exInfo
     (by decide) (by decide) (by decide)⟩

/-- C6: a `do` body that throws `NonRetryableError` on a fresh step fails
terminally on the first occurrence for *any* configured retry limit: the
body runs exactly once, the checkpoint becomes `failed` with the attempts
counter 1, the raised error's message equals the original's, and the
instance records are untouched by the step call. -/
theorem c6_nonretryable_first_failure (s : Storage) (id name : String)
    (info : InstanceInfo) (cfg : Option RetryCfg)
    (body : Nat → Except JSError JSValue) (m : String) (now : Int)
    (hinst : alist.get s.instances id = some info)
    (hstep : loadStepState s id name = none)
    (hbody : body 0 = .error ⟨true, m⟩) :
    (stepDo s id name cfg body now false).out = .err m
    ∧ (stepDo s id name cfg body now false).bodyCalls = 1
    ∧ (stepDo s id name cfg body now false).backoffWaits = []
    ∧ loadStepState (stepDo s id name cfg body now false).store id name
        = some (.failed m (some 1))
    ∧ (stepDo s id name cfg body now false).store.instances = s.instances := by
  have hstep' : alist.get s.stepStorage (stepKey id name) = none := hstep
  simp [stepDo, hstep, hstep', retriesOf, doProceed, updateStepState, hinst, doLoop,
    hbody, loadStepState, alist.get_set_self]

theorem c6_witness :
    alist.get exStoreI.instances "i" = some exInfo
    ∧ loadStepState exStoreI "i" "non-retry-step" = none
    ∧ bodyNonRetry 0 = .error ⟨true, "Non-retryable error"⟩
    ∧ ((stepDo exStoreI "i" "non-retry-step" (some cfgExp) bodyNonRetry 0 false).out
        = .err "Non-retryable error"
       ∧ (stepDo exStoreI "i" "non-retry-step" (some cfgExp) bodyNonRetry 0 false).bodyCalls
        = 1
       ∧ (stepDo exStoreI "i" "non-retry-step" (some cfgExp) bodyNonRetry 0 false).backoffWaits
        = []
       ∧ loadStepState
           (stepDo exStoreI "i" "non-retry-step" (some cfgExp) bodyNonRetry 0 false).store
           "i" "non-retry-step" = some (.failed "Non-retryable error" (some 1))
       ∧ (stepDo exStoreI "i" "non-retry-step" (some cfgExp) bodyNonRetry 0 false).store.instances
        = exStoreI.instances) :=
  ⟨by decide, by decide, by decide,
   c6_nonretryable_first_failure exStoreI "i" "non-retry-step" exInfo
     (some cfgExp) bodyNonRetry "Non-retryable error" 0 (by decide) (by decide)
     (by decide)⟩

/-- C7 (amended): the duration parser accepts *at least* every string
matching the anchored pattern, converting with the unit multipliers; but
because the source regex is unanchored, a string merely containing a
`digits + unit` fragment is also accepted (first fragment wins, see the
counterexample), and only strings with no such fragment fail. -/
theorem c7_amended_anchored_subset (s : String) (v : Nat)
    (h : parseDurationAnchored s = some v) :
    parseDuration s = .ok v := by
  have hs : searchDur s.data = some v := searchDur_of_anchored s.toList v h
  simp [parseDuration, hs]

theorem c7_witness :
    parseDurationAnchored " 2 hours " = some 7200000
    ∧ parseDuration " 2 hours " = .ok 7200000 :=
  ⟨by decide, c7_amended_anchored_subset " 2 hours " 7200000 (by decide)⟩

/-- C10 (amended): when the instance exists, `updateStepState(id, n, st)`
succeeds and changes only the checkpoint stored under the concatenated
string key `id + ":" + n` - the instance records (hence status, event,
output and error of every instance) and the pending events are untouched,
and every checkpoint whose string key differs is unchanged; when no record
exists the call fails with not-found.  Because keys are concatenated
strings, a *different* (instance, step) pair whose concatenation collides
(a name containing `:`) is overwritten, as the counterexample shows. -/
theorem c10_frame (s : Storage) (id name : String) (st : StepState)
    (info : InstanceInfo) (id2 n2 : String)
    (hinst : alist.get s.instances id = some info)
    (hne : stepKey id2 n2 ≠ stepKey id name) :
    (∃ s2, updateStepState s id name st = .ok s2
      ∧ s2.instances = s.instances
      ∧ s2.pendingEvents = s.pendingEvents
      ∧ loadStepState s2 id name = some st
      ∧ loadStepState s2 id2 n2 = loadStepState s id2 n2)
    ∧ ∀ (s' : Storage) (j : String), alist.get s'.instances j = none →
        updateStepState s' j name st = .error ("Instance " ++ j ++ " not found") := by
  constructor
  · refine ⟨{ s with stepStorage := alist.set s.stepStorage (stepKey id name) st },
      ?_, rfl, rfl, ?_, ?_⟩
    · simp [updateStepState, hinst]
    · simp [loadStepState, alist.get_set_self]
    · simp [loadStepState, alist.get_set_ne _ _ _ _ hne]
  · intro s' j hj
    simp [updateStepState, hj]

theorem c10_witness :
    alist.get exStoreI.instances "i" = some exInfo
    ∧ stepKey "j" "t" ≠ stepKey "i" "s"
    ∧ ((∃ s2, updateStepState exStoreI "i" "s" .pending = .ok s2
        ∧ s2.instances = exStoreI.instances
        ∧ s2.pendingEvents = exStoreI.pendingEvents
        ∧ loadStepState s2 "i" "s" = some .pending
        ∧ loadStepState s2 "j" "t" = loadStepState exStoreI "j" "t")
       ∧ ∀ (s' : Storage) (j : String), alist.get s'.instances j = none →
          updateStepState s' j "s" .pending
            = .error ("Instance " ++ j ++ " not found")) :=
  ⟨by decide, by decide,
   c10_frame exStoreI "i" "s" .pending exInfo "j" "t" (by decide) (by decide)⟩

end Workflow
